import Mathlib

/-!
Verification of the submission-lifecycle and access-control core of the
student journal portal (single-page client in `src/frontend/src/App.js`).

The client code is embedded shallowly: React component state becomes an
explicit state record, and each network call becomes an explicit
`Except`-valued response parameter, so that every handler is a pure function
from (state, response) to the next state plus its observable effects
(requests issued, console log entries, messages surfaced to the user).

The collaborator-side Submission Workflow (the manuscript store behind the
REST API) is not part of the repository source; where a property is decided
by that store it is modelled from the spec, and each such definition says so
in its doc comment.
-/

namespace App

/-- User roles as they appear in the source (string comparisons against
`student`, `admin` and `super_admin`). -/
inductive Role where
  | student
  | admin
  | super_admin
deriving DecidableEq, Repr

/-- An authenticated user, as returned by `GET /current_user`. -/
structure Identity where
  id : Nat
  name : String
  email : String
  role : Role
deriving DecidableEq, Repr

/-- Manuscript review status. -/
inductive Status where
  | pending
  | approved
  | rejected
deriving DecidableEq, Repr

/-- A calendar date, reduced to the one component the client reads
(`new Date(paper.submission_date).getFullYear()`). -/
structure Date where
  year : Int
deriving DecidableEq, Repr

/-- The year component of a date, as `Date.prototype.getFullYear` returns it. -/
def getFullYear (d : Date) : Int := d.year

/-- A manuscript record as the client consumes it from `GET /papers`. -/
structure Manuscript where
  id : Nat
  title : String
  authors : List String
  institution : String
  email : String
  category : String
  abstract : String
  keywords : List String
  word_count : Nat
  file_url : String
  status : Status
  submission_date : Date
  doi : Option String
deriving DecidableEq, Repr

/-- The error kinds of the design's taxonomy, used to tag the distinct failure
outcomes observable in the client. -/
inductive AppError where
  | authError
  | authorizationError
  | validationError
  | invalidStateTransition
  | networkError
  | notFound
  | conflictError
deriving DecidableEq, Repr

/-! ## Session Manager (`AuthProvider`, App.js lines 20-76)

State: the persisted token (`localStorage`), the in-memory `user`, and the
`loading` flag. Network responses are passed in explicitly. -/

/-- The `AuthProvider` state: `localStorage` token, React `user` state and the
`loading` flag. -/
structure SessionState where
  storedToken : Option String
  user : Option Identity
  loading : Bool
deriving DecidableEq, Repr

/-- The session at process start: no token, no user, loading. -/
def emptySession : SessionState :=
  { storedToken := none, user := none, loading := true }

/-- The handler `fetchCurrentUser` (App.js 33-44): on success stores the identity in
`user`; on failure removes the persisted token and leaves `user` as it was;
either way clears `loading`. -/
def fetchCurrentUser (st : SessionState) (resp : Except AppError Identity) :
    SessionState :=
  match resp with
  | .ok i => { st with user := some i, loading := false }
  | .error _ => { st with storedToken := none, loading := false }

/-- The payload a client call resolves with: the `POST /token` endpoint
resolves with a token payload, the `GET /current_user` endpoint with an
identity payload. -/
inductive ResponseData where
  | tokenPayload (access_token : String)
  | identityPayload (i : Identity)
deriving DecidableEq, Repr

/-- The handler `login` (App.js 46-56): posts credentials; on failure the rejection
propagates to the caller and nothing else runs. On success it persists the
token, runs `fetchCurrentUser`, and returns `response.data` of the token
call — the token payload. -/
def login (st : SessionState) (tokenResp : Except AppError String)
    (userResp : Except AppError Identity) :
    Except AppError ResponseData × SessionState :=
  match tokenResp with
  | .error e => (.error e, st)
  | .ok tok =>
      (.ok (.tokenPayload tok),
        fetchCurrentUser { st with storedToken := some tok } userResp)

/-- The handler `logout` (App.js 58-61): removes the token and clears the user. -/
def logout (st : SessionState) : SessionState :=
  { st with storedToken := none, user := none }

/-! ## Access Policy

The source scatters the same role test over its call sites: the `Admin`
navigation link (App.js 117) and the `AdminDashboard` gate (App.js 945) both
test `user?.role === 'admin' || user?.role === 'super_admin'`, while the
submit, apply-as-reviewer and published-papers routes carry no guard. -/

/-- The role test the source repeats at App.js 117, 894 and 945:
`user?.role === 'admin' || user?.role === 'super_admin'`. An absent user
(`user?.` on `null`) fails the test. -/
def isAdminRole : Option Identity → Bool
  | none => false
  | some i => i.role == .admin || i.role == .super_admin

/-- The actions the spec's Access Policy ranges over. -/
inductive Action where
  | viewAdminConsole
  | listPendingManuscripts
  | listReviewerApplications
  | decideManuscript
  | decideApplication
  | submitManuscript
  | applyAsReviewer
  | browsePublished
deriving DecidableEq, Repr

/-- Which actions the admin gate covers. -/
def adminAction : Action → Bool
  | .viewAdminConsole => true
  | .listPendingManuscripts => true
  | .listReviewerApplications => true
  | .decideManuscript => true
  | .decideApplication => true
  | _ => false

/-- The access decision as the source realizes it: the five admin-console
actions sit behind the role test (the `Admin` link at App.js 117 and the
dashboard gate at App.js 945, which fronts the pending-paper fetch, the
application fetch and the review handler); the submit, apply and browse
routes are reachable by anyone, anonymous included (App.js 1040-1047). -/
def canAccess (u : Option Identity) : Action → Bool
  | .viewAdminConsole => isAdminRole u
  | .listPendingManuscripts => isAdminRole u
  | .listReviewerApplications => isAdminRole u
  | .decideManuscript => isAdminRole u
  | .decideApplication => isAdminRole u
  | .submitManuscript => true
  | .applyAsReviewer => true
  | .browsePublished => true

/-! ## Admin dashboard (`AdminDashboard`, App.js 887-1030)

`handleReview` posts the decision and on success drops the paper from the
pending list (`setPapers(papers.filter(p => p.id !== paperId))`); on failure
it only writes to the console — the component has no message state, so
nothing is surfaced to the user. The component itself renders
`<Navigate to="/login" />` for any visitor that fails the role test, so the
review handler is unreachable (and no request can be issued) without the
admin role. -/

/-- The observable outcome of running `handleReview`: the resulting pending
list, the console log entries written, how many network requests were issued,
and the error (if any) surfaced to the user through component state. -/
structure ReviewOutcome where
  papers : List Manuscript
  console : List AppError
  requests : Nat
  surfaced : Option AppError
deriving DecidableEq, Repr

/-- The handler `handleReview` (App.js 926-943): posts `action`/`comment` to
`POST /review/paperId`; on success filters the paper out of the pending
list; on failure logs the error to the console only. -/
def handleReview (papers : List Manuscript) (paperId : Nat)
    (action comment : String) (resp : Except AppError Unit) : ReviewOutcome :=
  match resp with
  | .ok _ =>
      { papers := papers.filter (fun p => p.id != paperId),
        console := [], requests := 1, surfaced := none }
  | .error e =>
      { papers := papers, console := [e], requests := 1, surfaced := none }

/-- What the `AdminDashboard` route yields: either the redirect to `/login`
(the client-side access denial at App.js 945) or a review outcome. -/
inductive DashboardView where
  | redirectLogin
  | outcome (o : ReviewOutcome)
deriving DecidableEq, Repr

/-- A review decision attempted through the `AdminDashboard` route: the role
gate at App.js 945 runs first; only when it passes does `handleReview` run. -/
def adminDashboardReview (u : Option Identity) (papers : List Manuscript)
    (paperId : Nat) (action comment : String) (resp : Except AppError Unit) :
    DashboardView :=
  if isAdminRole u then .outcome (handleReview papers paperId action comment resp)
  else .redirectLogin

/-- Network requests issued by a dashboard view: the redirect issues none. -/
def viewRequests : DashboardView → Nat
  | .redirectLogin => 0
  | .outcome o => o.requests

/-! ## Catalog query (`Papers`, App.js 629-736) -/

/-- The `Papers` component state: the fetched list and the loading flag. -/
structure PapersState where
  papers : List Manuscript
  loading : Bool
deriving DecidableEq, Repr

/-- The handler `fetchPapers` (App.js 642-656): on success replaces the list; on failure
logs the error to the console and leaves the list as it was; the component
has no error display, so nothing is surfaced. The second component of the
result is the console log. -/
def fetchPapers (st : PapersState) (resp : Except AppError (List Manuscript)) :
    PapersState × List AppError :=
  match resp with
  | .ok ps => ({ papers := ps, loading := false }, [])
  | .error e => ({ st with loading := false }, [e])

/-- The journal name as hard-coded in the citation template (App.js 660). -/
def journalName : String := "La Revista Nacional de las Ciencias para Estudiantes"

/-- JS template interpolation of a possibly-null DOI value. -/
def doiText : Option String → String
  | some s => s
  | none => "null"

/-- The function `generateCitation` (App.js 658-661): the APA-style citation string built
from the authors, the submission year, the title, the journal name and the
DOI. -/
def generateCitation (p : Manuscript) : String :=
  String.intercalate ", " p.authors ++ ". (" ++
    toString (getFullYear p.submission_date) ++ "). " ++ p.title ++ ". " ++
    journalName ++ ". DOI: " ++ doiText p.doi

/-- The citation format as the spec words it (§4.4): authors joined by
comma-space, a period, the year of the submission date in parentheses, the
title, the journal name, and the DOI, each period-separated. Stated
separately from `generateCitation` so the two can be compared. -/
def citationSpec (p : Manuscript) (doi : String) : String :=
  String.intercalate ", " p.authors ++ ". (" ++
    toString (getFullYear p.submission_date) ++ "). " ++ p.title ++ ". " ++
    journalName ++ ". DOI: " ++ doi

/-! ## Paper submission (`SubmitPaper`, App.js 243-445)

The word-count bound lives in the form markup: the `word_count` input is
`type="number" min="2000" max="8000" required` (App.js 406-418), and every
other field is `required`; the browser's constraint validation blocks the
form's submit event — and with it `handleSubmit` and its network request —
while any constraint is violated. -/

/-- The `SubmitPaper` form state (App.js 244-254), with `word_count` already
parsed to a number as `handleSubmit` does via `parseInt`. -/
structure PaperForm where
  title : String
  authors : String
  institution : String
  email : String
  category : String
  abstract : String
  keywords : String
  word_count : Nat
  file : Option String
deriving DecidableEq, Repr

/-- Browser constraint validation of the submit form, from the input
attributes at App.js 311-441: every field `required` (non-empty, file
chosen), and `word_count` within `min="2000"`/`max="8000"`. -/
def validPaperForm (f : PaperForm) : Bool :=
  f.title != "" && f.authors != "" && f.institution != "" && f.email != "" &&
  f.category != "" && f.abstract != "" && f.keywords != "" &&
  decide (2000 ≤ f.word_count) && decide (f.word_count ≤ 8000) &&
  f.file.isSome

/-- What a submit attempt comes to: blocked by constraint validation before
any request, or sent with the message the handler then displays. -/
inductive SubmitResult where
  | blocked (e : AppError)
  | sent (message : String)
deriving DecidableEq, Repr

/-- The message `handleSubmit` (App.js 273-301) sets from the response: the
success message carries the DOI, the failure message carries the server
detail (or transport message) — a distinguishable, detailed failure. -/
def handleSubmitResult (resp : Except String String) : String :=
  match resp with
  | .ok doi => "Paper enviado exitosamente. DOI: " ++ doi
  | .error detail => "Error al enviar el paper: " ++ detail

/-- A full submit attempt: constraint validation gates `handleSubmit`; the
second component counts network requests issued. -/
def submitPaperForm (f : PaperForm) (resp : Except String String) :
    SubmitResult × Nat :=
  if validPaperForm f then (.sent (handleSubmitResult resp), 1)
  else (.blocked .validationError, 0)

/-! ## Submission Workflow store

The manuscript store behind the REST API is a collaborator; the repository
holds only the browser client, so the store's state machine is modelled from
the spec (§4.3): `submit` validates and creates a Pending record with no
DOI; `decide` is legal only from Pending, approval assigns the DOI
atomically, and any decision on a non-Pending manuscript is refused. -/

/-- Modelled from the spec: the fields `submit` (§4.3) takes; the
collaborator-side workflow is not under `src/`. -/
structure SubmitFields where
  title : String
  authors : List String
  institution : String
  email : String
  category : String
  abstract : String
  keywords : List String
  word_count : Nat
  fileExt : String
deriving DecidableEq, Repr

/-- Modelled from the spec: the accepted manuscript file extensions (the
submit form accepts `.doc,.docx`, App.js 427). -/
def acceptedExtensions : List String := ["doc", "docx"]

/-- Modelled from the spec: intake validation of `submit` (§4.3) — required
fields present, `word_count` within `[2000, 8000]`, accepted file type. -/
def validSubmission (f : SubmitFields) : Bool :=
  f.title != "" && f.authors != [] && f.institution != "" && f.email != "" &&
  f.category != "" && f.abstract != "" && f.keywords != [] &&
  decide (2000 ≤ f.word_count) && decide (f.word_count ≤ 8000) &&
  acceptedExtensions.contains f.fileExt

/-- Modelled from the spec: the manuscript record `submit` creates — status
Pending, no DOI (§3, §4.3). -/
def mkManuscript (id : Nat) (date : Date) (f : SubmitFields) : Manuscript :=
  { id := id, title := f.title, authors := f.authors,
    institution := f.institution, email := f.email, category := f.category,
    abstract := f.abstract, keywords := f.keywords,
    word_count := f.word_count, file_url := "", status := .pending,
    submission_date := date, doi := none }

/-- Modelled from the spec: the collaborator-side manuscript store — the
records plus a fresh-id counter. -/
structure Store where
  manuscripts : List Manuscript
  nextId : Nat
deriving DecidableEq, Repr

/-- The store before any submission. -/
def emptyStore : Store := { manuscripts := [], nextId := 0 }

/-- Modelled from the spec: `submit` (§4.3) — validates, then creates a
Pending record under a fresh id and returns the assigned id; rejects invalid
input before any record is created. -/
def submitWorkflow (s : Store) (f : SubmitFields) (date : Date) :
    Except AppError (Store × Nat) :=
  if validSubmission f then
    .ok ({ manuscripts := s.manuscripts ++ [mkManuscript s.nextId date f],
           nextId := s.nextId + 1 }, s.nextId)
  else .error .validationError

/-- A review decision action. -/
inductive DecideAction where
  | approve
  | reject
deriving DecidableEq, Repr

/-- Modelled from the spec: the DOI the collaborator assigns on approval,
as a function of the manuscript id. -/
def doiFor (id : Nat) : String := "10.0000/rnce." ++ toString id

/-- Modelled from the spec: the effect of a decision on a manuscript —
approval sets the status and assigns the DOI atomically, rejection only sets
the status (§4.3). -/
def applyDecision (a : DecideAction) (m : Manuscript) : Manuscript :=
  match a with
  | .approve => { m with status := .approved, doi := some (doiFor m.id) }
  | .reject => { m with status := .rejected }

/-- Modelled from the spec: `decide` (§4.3) — only legal from Pending; a
decision on an already-decided manuscript fails with
`InvalidStateTransition`. -/
def decideWorkflow (s : Store) (id : Nat) (a : DecideAction) :
    Except AppError Store :=
  match s.manuscripts.find? (fun m => m.id == id) with
  | none => .error .notFound
  | some m =>
      if m.status == .pending then
        .ok { s with manuscripts :=
          s.manuscripts.map (fun x => if x.id == id then applyDecision a x else x) }
      else .error .invalidStateTransition

/-- The stores reachable from the empty store through the workflow's two
mutating operations. -/
inductive Reachable : Store → Prop where
  | init : Reachable emptyStore
  | submit (s : Store) (f : SubmitFields) (d : Date) (s2 : Store) (i : Nat) :
      Reachable s → submitWorkflow s f d = .ok (s2, i) → Reachable s2
  | decide (s : Store) (id : Nat) (a : DecideAction) (s2 : Store) :
      Reachable s → decideWorkflow s id a = .ok s2 → Reachable s2

/-- The inductive invariant of the store: the DOI is present exactly on
approved manuscripts, ids are distinct, and every id is below the fresh-id
counter. -/
def storeInv (s : Store) : Prop :=
  (∀ m ∈ s.manuscripts, (m.status = .approved ↔ m.doi ≠ none)) ∧
  (s.manuscripts.map (fun m => m.id)).Nodup ∧
  (∀ m ∈ s.manuscripts, m.id < s.nextId)

/-! ## Workflow invariant lemmas -/

lemma applyDecision_id (a : DecideAction) (m : Manuscript) :
    (applyDecision a m).id = m.id := by
  cases a <;> rfl

lemma mkManuscript_id (i : Nat) (d : Date) (f : SubmitFields) :
    (mkManuscript i d f).id = i := rfl

lemma storeInv_emptyStore : storeInv emptyStore := by
  refine ⟨?_, ?_, ?_⟩ <;> simp [emptyStore, storeInv]

lemma storeInv_submit (s : Store) (f : SubmitFields) (d : Date) (s2 : Store)
    (i : Nat) (hinv : storeInv s) (h : submitWorkflow s f d = .ok (s2, i)) :
    storeInv s2 := by
  obtain ⟨h1, h2, h3⟩ := hinv
  unfold submitWorkflow at h
  split at h
  · simp only [Except.ok.injEq, Prod.mk.injEq] at h
    obtain ⟨hs2, hi⟩ := h
    subst hs2
    refine ⟨?_, ?_, ?_⟩
    · intro m hm
      rcases List.mem_append.mp hm with hm | hm
      · exact h1 m hm
      · rcases List.mem_singleton.mp hm with rfl
        simp [mkManuscript]
    · simp only [List.map_append, List.map_cons, List.map_nil]
      refine List.Nodup.append h2 (List.nodup_singleton _) ?_
      intro a ha hb
      rcases List.mem_map.mp ha with ⟨m, hm, rfl⟩
      have hlt := h3 m hm
      simp only [mkManuscript_id, List.mem_singleton] at hb
      omega
    · intro m hm
      rcases List.mem_append.mp hm with hm | hm
      · have := h3 m hm
        simp only []
        omega
      · rcases List.mem_singleton.mp hm with rfl
        simp [mkManuscript_id]
  · exact absurd h (by simp)

lemma find?_update (l : List Manuscript) (id : Nat) (a : DecideAction)
    (m : Manuscript) (h : l.find? (fun x => x.id == id) = some m) :
    (l.map (fun x => if x.id == id then applyDecision a x else x)).find?
      (fun x => x.id == id) = some (applyDecision a m) := by
  induction l with
  | nil => simp at h
  | cons y ys ih =>
      cases hy : (y.id == id) with
      | true =>
          simp only [List.find?_cons, hy] at h
          injection h with h2
          subst h2
          have hap : ((fun x => x.id == id) (applyDecision a y)) = true := by
            simp only [applyDecision_id]
            exact hy
          rw [List.map_cons, if_pos hy]
          exact List.find?_cons_of_pos _ hap
      | false =>
          simp only [List.find?_cons, hy] at h
          simp only [List.map_cons, List.find?_cons, hy, if_neg, Bool.false_eq_true,
            if_false]
          exact ih h

lemma storeInv_decide (s : Store) (id : Nat) (a : DecideAction) (s2 : Store)
    (hinv : storeInv s) (h : decideWorkflow s id a = .ok s2) : storeInv s2 := by
  obtain ⟨h1, h2, h3⟩ := hinv
  unfold decideWorkflow at h
  split at h
  · exact absurd h (by simp)
  · rename_i m hf
    split at h
    · rename_i hp
      injection h with h4
      have hmem : m ∈ s.manuscripts := List.mem_of_find?_eq_some hf
      have hmid := List.find?_some hf
      have hpend : m.status = .pending := beq_iff_eq.mp hp
      have hdoi : m.doi = none := by
        by_contra hc
        have := (h1 m hmem).mpr hc
        rw [hpend] at this
        exact absurd this (by simp)
      have hman : s2.manuscripts = s.manuscripts.map
          (fun x => if x.id == id then applyDecision a x else x) := by
        rw [← h4]
      have hnext : s2.nextId = s.nextId := by rw [← h4]
      refine ⟨?_, ?_, ?_⟩
      · intro x hx
        rw [hman] at hx
        rcases List.mem_map.mp hx with ⟨y, hy, hxy⟩
        by_cases hc : (y.id == id) = true
        · rw [if_pos hc] at hxy
          subst hxy
          have hym : y = m :=
            List.inj_on_of_nodup_map h2 hy hmem
              (by rw [beq_iff_eq.mp hc, beq_iff_eq.mp hmid])
          subst hym
          cases a with
          | approve => simp [applyDecision]
          | reject => simp [applyDecision, hdoi]
        · rw [if_neg hc] at hxy
          subst hxy
          exact h1 y hy
      · rw [hman]
        have hids : (s.manuscripts.map
            (fun x => if x.id == id then applyDecision a x else x)).map
            (fun m => m.id) = s.manuscripts.map (fun m => m.id) := by
          rw [List.map_map]
          apply List.map_congr_left
          intro x hx
          by_cases hc : (x.id == id) = true
          · simp only [Function.comp, if_pos hc, applyDecision_id]
          · simp only [Function.comp, if_neg hc]
        rw [hids]
        exact h2
      · intro x hx
        rw [hman] at hx
        rcases List.mem_map.mp hx with ⟨y, hy, hxy⟩
        rw [hnext]
        by_cases hc : (y.id == id) = true
        · rw [if_pos hc] at hxy
          subst hxy
          rw [applyDecision_id]
          exact h3 y hy
        · rw [if_neg hc] at hxy
          subst hxy
          exact h3 y hy
    · exact absurd h (by simp)

lemma reachable_storeInv (s : Store) (h : Reachable s) : storeInv s := by
  induction h with
  | init => exact storeInv_emptyStore
  | submit s f d s2 i _ hok ih => exact storeInv_submit s f d s2 i ih hok
  | decide s id a s2 _ hok ih => exact storeInv_decide s id a s2 ih hok

/-! ## Sample data used by witnesses -/

/-- A concrete valid submission. -/
def sampleFields : SubmitFields :=
  { title := "X", authors := ["A", "B"], institution := "U",
    email := "a@x.com", category := "Fisica", abstract := "r",
    keywords := ["k"], word_count := 3000, fileExt := "docx" }

/-- A concrete submission date. -/
def sampleDate : Date := { year := 2025 }

/-- The store after submitting `sampleFields` to the empty store. -/
def sampleStore : Store :=
  { manuscripts := [mkManuscript 0 sampleDate sampleFields], nextId := 1 }

/-- The store after approving manuscript 0 in `sampleStore`. -/
def approvedStore : Store :=
  { manuscripts := [applyDecision .approve (mkManuscript 0 sampleDate sampleFields)],
    nextId := 1 }

/-- A concrete non-admin user. -/
def alice : Identity :=
  { id := 1, name := "Alice", email := "alice@example.com", role := .student }

/-- A concrete submit form whose word count is far below the minimum. -/
def badForm : PaperForm :=
  { title := "X", authors := "A, B", institution := "U", email := "a@x.com",
    category := "Fisica", abstract := "r", keywords := "k",
    word_count := 100, file := some "paper.docx" }

/-- A concrete approved paper with a DOI. -/
def samplePaper : Manuscript :=
  { id := 7, title := "T", authors := ["A", "B"], institution := "U",
    email := "a@x.com", category := "Fisica", abstract := "r",
    keywords := ["k"], word_count := 3000, file_url := "u",
    status := .approved, submission_date := { year := 2025 },
    doi := some "10.0000/rnce.7" }

/-- A concrete pending paper with the given id. -/
def pendingPaper (n : Nat) : Manuscript :=
  { id := n, title := "P", authors := ["A"], institution := "U",
    email := "a@x.com", category := "Fisica", abstract := "r",
    keywords := ["k"], word_count := 3000, file_url := "u",
    status := .pending, submission_date := { year := 2025 }, doi := none }

/-! ## The claims -/

/-- C1: in every reachable store the DOI is present exactly on approved
manuscripts, and a manuscript freshly created by `submit` enters the store
with status Pending and no DOI. -/
theorem manuscript_doi_iff_approved :
    (∀ s, Reachable s → ∀ m ∈ s.manuscripts, (m.status = .approved ↔ m.doi ≠ none)) ∧
    (∀ (s : Store) (f : SubmitFields) (d : Date) (s2 : Store) (i : Nat),
      submitWorkflow s f d = .ok (s2, i) →
      mkManuscript i d f ∈ s2.manuscripts ∧
      (mkManuscript i d f).status = .pending ∧ (mkManuscript i d f).doi = none) := by
  constructor
  · intro s hs m hm
    exact (reachable_storeInv s hs).1 m hm
  · intro s f d s2 i h
    unfold submitWorkflow at h
    split at h
    · simp only [Except.ok.injEq, Prod.mk.injEq] at h
      obtain ⟨hs2, hi⟩ := h
      subst hs2
      subst hi
      exact ⟨by simp, rfl, rfl⟩
    · exact absurd h (by simp)

/-- Witness for C1 at a concrete reachable store: the freshly submitted
manuscript satisfies the DOI-iff-approved invariant. -/
theorem manuscript_doi_iff_approved_witness :
    ((mkManuscript 0 sampleDate sampleFields).status = .approved ↔
      (mkManuscript 0 sampleDate sampleFields).doi ≠ none) :=
  manuscript_doi_iff_approved.1 sampleStore
    (Reachable.submit emptyStore sampleFields sampleDate sampleStore 0
      Reachable.init rfl)
    (mkManuscript 0 sampleDate sampleFields) (by simp [sampleStore])

/-- C2: a decide attempt through the admin dashboard by an anonymous or
non-admin caller is denied by the client-side access check — `canAccess`
refuses `decideManuscript`, the dashboard renders the login redirect (the
outcome the spec's taxonomy names `AuthorizationError`), and no network
request is issued. -/
theorem anonymous_decide_denied :
    ∀ (u : Option Identity) (papers : List Manuscript) (paperId : Nat)
      (action comment : String) (resp : Except AppError Unit),
      (∀ i, u = some i → i.role ≠ .admin ∧ i.role ≠ .super_admin) →
      canAccess u .decideManuscript = false ∧
      adminDashboardReview u papers paperId action comment resp = .redirectLogin ∧
      viewRequests (adminDashboardReview u papers paperId action comment resp) = 0 := by
  intro u papers paperId action comment resp h
  have hrole : isAdminRole u = false := by
    cases u with
    | none => rfl
    | some i =>
        obtain ⟨hA, hS⟩ := h i rfl
        cases hr : i.role with
        | student => simp [isAdminRole, hr]
        | admin => exact absurd hr hA
        | super_admin => exact absurd hr hS
  refine ⟨?_, ?_, ?_⟩
  · simp [canAccess, hrole]
  · simp [adminDashboardReview, hrole]
  · simp [adminDashboardReview, hrole, viewRequests]

/-- Witness for C2: the anonymous caller. -/
theorem anonymous_decide_denied_witness :
    canAccess none .decideManuscript = false ∧
    adminDashboardReview none [] 1 "approved" "" (.ok ()) = .redirectLogin ∧
    viewRequests (adminDashboardReview none [] 1 "approved" "" (.ok ())) = 0 :=
  anonymous_decide_denied none [] 1 "approved" "" (.ok ()) (fun _ h => nomatch h)

/-- C3: approving a Pending manuscript transitions it to Approved exactly
once — afterwards every record under that id is Approved, and any second
decision on the same id fails with `InvalidStateTransition`. -/
theorem decide_pending_once :
    ∀ (s : Store) (id : Nat) (s2 : Store),
      decideWorkflow s id .approve = .ok s2 →
      (∀ m ∈ s2.manuscripts, m.id = id → m.status = .approved) ∧
      (∀ a, decideWorkflow s2 id a = .error .invalidStateTransition) := by
  intro s id s2 h
  unfold decideWorkflow at h
  split at h
  · exact absurd h (by simp)
  · rename_i m hf
    split at h
    · rename_i hp
      injection h with h4
      have hman : s2.manuscripts = s.manuscripts.map
          (fun x => if x.id == id then applyDecision .approve x else x) := by
        rw [← h4]
      constructor
      · intro x hx hid
        rw [hman] at hx
        rcases List.mem_map.mp hx with ⟨y, hy, hxy⟩
        by_cases hc : (y.id == id) = true
        · rw [if_pos hc] at hxy
          subst hxy
          simp [applyDecision]
        · rw [if_neg hc] at hxy
          subst hxy
          exact absurd (beq_iff_eq.mpr hid) hc
      · intro a
        unfold decideWorkflow
        rw [hman, find?_update s.manuscripts id .approve m hf]
        simp [applyDecision]
    · exact absurd h (by simp)

/-- Witness for C3: after the concrete approval of manuscript 0, a second
decision on id 0 fails with `InvalidStateTransition`. -/
theorem decide_pending_once_witness :
    decideWorkflow approvedStore 0 .approve = .error .invalidStateTransition :=
  (decide_pending_once sampleStore 0 approvedStore rfl).2 .approve

/-- C4: a submit form whose word count is below 2000 or above 8000 is
blocked by the client-side constraint validation with a `ValidationError`
outcome, and no network request — hence no record — is produced. -/
theorem submit_word_count_out_of_range_blocked :
    ∀ (f : PaperForm) (resp : Except String String),
      f.word_count < 2000 ∨ 8000 < f.word_count →
      submitPaperForm f resp = (.blocked .validationError, 0) := by
  intro f resp h
  have hv : validPaperForm f = false := by
    unfold validPaperForm
    rcases h with h | h
    · have hd : decide (2000 ≤ f.word_count) = false := by
        simp only [decide_eq_false_iff_not]
        omega
      simp [hd]
    · have hd : decide (f.word_count ≤ 8000) = false := by
        simp only [decide_eq_false_iff_not]
        omega
      simp [hd]
  unfold submitPaperForm
  rw [hv]
  simp

/-- Witness for C4: a concrete form with 100 words is blocked. -/
theorem submit_word_count_out_of_range_blocked_witness :
    submitPaperForm badForm (.ok "10.1/x") = (.blocked .validationError, 0) :=
  submit_word_count_out_of_range_blocked badForm (.ok "10.1/x")
    (Or.inl (by decide))

/-- C5 counterexample: a transport failure during `decide` is silently
swallowed — nothing is surfaced to the caller, the error lands only in the
console log — and a `list` failure leaves a state indistinguishable from the
one another error kind leaves. -/
theorem review_failure_swallowed :
    (handleReview [] 1 "approved" "" (.error .networkError)).surfaced = none ∧
    (handleReview [] 1 "approved" "" (.error .networkError)).console = [.networkError] ∧
    (fetchPapers { papers := [], loading := true } (.error .networkError)).1 =
      (fetchPapers { papers := [], loading := true } (.error .authError)).1 :=
  ⟨rfl, rfl, rfl⟩

/-- C5 amended: transport failures in `decide` and `list` are logged to the
console and never surfaced to the caller (their component state is otherwise
unchanged); `submit` and `login` failures are surfaced with distinguishing
detail; and stale-token validation in `restore` degrades to the
unauthenticated state by dropping the token without propagating an error. -/
theorem error_surfacing_behavior :
    ∀ (papers : List Manuscript) (paperId : Nat) (action comment : String)
      (e : AppError) (ps : PapersState) (detail : String)
      (st : SessionState) (uresp : Except AppError Identity) (tok : String),
      (handleReview papers paperId action comment (.error e)).surfaced = none ∧
      (handleReview papers paperId action comment (.error e)).console = [e] ∧
      (handleReview papers paperId action comment (.error e)).papers = papers ∧
      (fetchPapers ps (.error e)).1.papers = ps.papers ∧
      (fetchPapers ps (.error e)).2 = [e] ∧
      handleSubmitResult (.error detail) = "Error al enviar el paper: " ++ detail ∧
      (login st (.error e) uresp).1 = .error e ∧
      fetchCurrentUser { storedToken := some tok, user := none, loading := true }
          (.error e) =
        { storedToken := none, user := none, loading := false } := by
  intro papers paperId action comment e ps detail st uresp tok
  exact ⟨rfl, rfl, rfl, rfl, rfl, rfl, rfl, rfl⟩

/-- C6 counterexample: a fully successful `login` returns the token payload
of the `POST /token` response — not the resolved Identity. -/
theorem login_returns_token_payload :
    (login emptySession (.ok "tok123") (.ok alice)).1 =
      .ok (.tokenPayload "tok123") ∧
    (login emptySession (.ok "tok123") (.ok alice)).1 ≠
      .ok (.identityPayload alice) := by
  exact ⟨rfl, by simp [login, fetchCurrentUser, emptySession]⟩

/-- C6 amended: a `login` whose token request and subsequent identity fetch
both succeed persists the bearer token, sets the Session identity to the
identity resolved from the Identity Store, and returns the token response
payload (not the Identity) to the caller. -/
theorem login_success_sets_session :
    ∀ (st : SessionState) (tok : String) (i : Identity),
      login st (.ok tok) (.ok i) =
        (.ok (.tokenPayload tok),
         { storedToken := some tok, user := some i, loading := false }) := by
  intro st tok i
  rfl

/-- C7: a `login` against invalid credentials fails with the authentication
error, performs none of the success-path effects, and leaves the pre-call
session — empty, with no persisted token — fully unchanged. -/
theorem login_invalid_credentials_unchanged :
    ∀ (st : SessionState) (uresp : Except AppError Identity),
      st.storedToken = none → st.user = none →
      login st (.error .authError) uresp = (.error .authError, st) ∧
      (login st (.error .authError) uresp).2.storedToken = none ∧
      (login st (.error .authError) uresp).2.user = none := by
  intro st uresp h1 h2
  exact ⟨rfl, h1, h2⟩

/-- Witness for C7: the empty session. -/
theorem login_invalid_credentials_unchanged_witness :
    login emptySession (.error .authError) (.ok alice) =
      (.error .authError, emptySession) ∧
    (login emptySession (.error .authError) (.ok alice)).2.storedToken = none ∧
    (login emptySession (.error .authError) (.ok alice)).2.user = none :=
  login_invalid_credentials_unchanged emptySession (.ok alice) rfl rfl

/-- C8: the access decision for the admin actions allows an identity exactly
when its role is admin or super_admin, and for every modeled action the
decision for role admin coincides with the decision for role super_admin. -/
theorem access_policy_admin_iff :
    (∀ (u : Option Identity) (a : Action), adminAction a = true →
      (canAccess u a = true ↔
        ∃ i, u = some i ∧ (i.role = .admin ∨ i.role = .super_admin))) ∧
    (∀ (i : Identity) (a : Action),
      canAccess (some { i with role := .admin }) a =
        canAccess (some { i with role := .super_admin }) a) := by
  constructor
  · intro u a ha
    have hiff : isAdminRole u = true ↔
        ∃ i, u = some i ∧ (i.role = .admin ∨ i.role = .super_admin) := by
      cases u with
      | none => simp [isAdminRole]
      | some i => simp [isAdminRole]
    cases a <;> simp_all [canAccess, adminAction]
  · intro i a
    cases a <;> simp [canAccess, isAdminRole]

/-- Witness for C8: the anonymous caller is not allowed to decide
manuscripts. -/
theorem access_policy_admin_iff_witness :
    canAccess none .decideManuscript = true ↔
      ∃ i, (none : Option Identity) = some i ∧
        (i.role = .admin ∨ i.role = .super_admin) :=
  access_policy_admin_iff.1 none .decideManuscript rfl

/-- C9: on a manuscript with authors and a DOI, `generateCitation` produces
exactly the string the spec's citation formula describes, and it is
deterministic. -/
theorem citation_matches_spec :
    ∀ (p : Manuscript) (d : String), p.authors ≠ [] → p.doi = some d →
      generateCitation p = citationSpec p d ∧
      generateCitation p = generateCitation p := by
  intro p d hne hd
  refine ⟨?_, rfl⟩
  unfold generateCitation citationSpec
  rw [hd]
  rfl

/-- Witness for C9: the concrete approved paper. -/
theorem citation_matches_spec_witness :
    generateCitation samplePaper = citationSpec samplePaper "10.0000/rnce.7" ∧
    generateCitation samplePaper = generateCitation samplePaper :=
  citation_matches_spec samplePaper "10.0000/rnce.7" (by decide) rfl

/-- C10: a successful review removes exactly the targeted entry from the
pending list — the entry with the decided id is gone and every other entry
is kept unchanged, in its original relative order. -/
theorem review_success_removes_target :
    ∀ (l₁ l₂ : List Manuscript) (m : Manuscript) (paperId : Nat)
      (action comment : String),
      m.id = paperId → (∀ x ∈ l₁ ++ l₂, x.id ≠ paperId) →
      (handleReview (l₁ ++ m :: l₂) paperId action comment (.ok ())).papers =
        l₁ ++ l₂ := by
  intro l₁ l₂ m paperId action comment hm hothers
  simp only [handleReview]
  rw [List.filter_append]
  have h1 : l₁.filter (fun p => p.id != paperId) = l₁ :=
    List.filter_eq_self.mpr (fun x hx =>
      bne_iff_ne.mpr (hothers x (List.mem_append.mpr (Or.inl hx))))
  have hmf : (m.id != paperId) = false := by
    simp [hm]
  have h2 : (m :: l₂).filter (fun p => p.id != paperId) = l₂ := by
    rw [List.filter_cons]
    rw [hmf]
    simp only [Bool.false_eq_true, if_false]
    exact List.filter_eq_self.mpr (fun x hx =>
      bne_iff_ne.mpr (hothers x (List.mem_append.mpr (Or.inr hx))))
  rw [h1, h2]

/-- Witness for C10: removing the middle element of a three-element pending
list. -/
theorem review_success_removes_target_witness :
    (handleReview [pendingPaper 1, pendingPaper 2, pendingPaper 3] 2
      "approved" "" (.ok ())).papers = [pendingPaper 1, pendingPaper 3] :=
  review_success_removes_target [pendingPaper 1] [pendingPaper 3]
    (pendingPaper 2) 2 "approved" "" rfl (by decide)

end App
